import Mathlib

/-!
# Verification of the slackstatus rule-evaluation engine

A shallow embedding, in Lean 4, of the scheduling core of the repository:

* `src/scheduler/evaluator.js` — rule matching (`createScheduleEvaluator`,
  `evaluateRule`, `shouldExecuteAtTime`, `evaluateWeeklyRule`,
  `evaluateIntervalRule`, `evaluateDateRule`);
* `src/scheduler/validator.js` — schedule validation (`validateSchedule`,
  `validateRule`, `validateStatus`, `validateOptions`, `isValidISODate`,
  `isValidTime`, `isValidEmoji`, `quickValidate`);
* `src/index.js` — the `SlackStatusScheduler` facade (`run`, `preview`,
  `_updateStatus`, `_clearStatus`, `_calculateExpiration`).

Modelling conventions:

* Instants are modelled in the schedule's single timezone, at millisecond
  granularity, as a Gregorian calendar date plus a millisecond-of-day.
  The `setZone` projections of the source are therefore the identity here;
  daylight-saving shifts are outside the model (every local day has
  86,400,000 milliseconds), matching the calendar-day arithmetic the
  source relies on (luxon `diff(..., 'days')`, `startOf('day')`,
  `endOf('day')`, `hasSame(..., 'day')`).
* The untyped JavaScript values handled by the validator are modelled by
  the inductive `JValue` (null / boolean / integer number / string /
  array / object); JavaScript truthiness and property access are made
  explicit.  Property access on a missing key is `Option.none`
  (JavaScript `undefined`).
* The IANA timezone database consulted by luxon is modelled as a fixed
  list of resolvable zone names; luxon additionally accepts numbers as
  fixed offsets.
* Asynchronous facade methods are modelled as pure state-passing
  functions that also return the list of calls issued to the injected
  Slack client, so that "never invokes the collaborator" is expressible.
  A thrown `Error` is an `Except.error` carrying the message.
-/

/-! ## Calendar arithmetic

The source delegates calendar arithmetic to luxon.  We embed the Gregorian
calendar directly: `daysFromCivil` is the standard civil-calendar day
count (days since 0000-03-01), which realises luxon's calendar-day
`diff`, and the weekday is derived from it (1 = Monday .. 7 = Sunday,
luxon's ISO weekday numbering). -/

/-- Gregorian leap-year test, as used by the date library backing the source. -/
def isLeapYear (y : Nat) : Bool :=
  (y % 4 = 0 && y % 100 ≠ 0) || (y % 400 = 0)

/-- Number of days in a month of the proleptic Gregorian calendar. -/
def daysInMonth (y m : Nat) : Nat :=
  if m = 2 then (if isLeapYear y then 29 else 28)
  else if m = 4 || m = 6 || m = 9 || m = 11 then 30
  else 31

/-- Days elapsed since 0000-03-01 for a civil date (valid for years ≥ 1),
the classic era/year-of-era/day-of-year computation.  Differences of this
count are exactly luxon's whole-calendar-day differences. -/
def daysFromCivil (y m d : Nat) : Nat :=
  let yAdj := if m ≤ 2 then y - 1 else y
  let era := yAdj / 400
  let yoe := yAdj % 400
  let mp := if 2 < m then m - 3 else m + 9
  let doy := (153 * mp + 2) / 5 + (d - 1)
  let doe := yoe * 365 + yoe / 4 - yoe / 100 + doy
  era * 146097 + doe

/-- A calendar date (`YYYY-MM-DD`) in the schedule's timezone. -/
structure Date where
  year : Nat
  month : Nat
  day : Nat
deriving Repr, DecidableEq

/-- Well-formedness of a calendar date. -/
def Date.Valid (dt : Date) : Prop :=
  1 ≤ dt.year ∧ 1 ≤ dt.month ∧ dt.month ≤ 12 ∧ 1 ≤ dt.day ∧ dt.day ≤ daysInMonth dt.year dt.month

instance (dt : Date) : Decidable dt.Valid := by
  unfold Date.Valid; infer_instance

/-- Day count of a date (luxon's calendar-day arithmetic). -/
def Date.rata (dt : Date) : Nat := daysFromCivil dt.year dt.month dt.day

/-- ISO weekday number, 1 = Monday .. 7 = Sunday (luxon `weekday`). -/
def Date.weekdayNum (dt : Date) : Nat := (dt.rata + 2) % 7 + 1

/-- Lower-cased short weekday token (luxon `weekdayShort.toLowerCase()`). -/
def Date.weekdayToken (dt : Date) : String :=
  match dt.weekdayNum with
  | 1 => "mon"
  | 2 => "tue"
  | 3 => "wed"
  | 4 => "thu"
  | 5 => "fri"
  | 6 => "sat"
  | _ => "sun"

/-- Milliseconds in a civil day (the model has no DST shifts). -/
def msPerDay : Nat := 86400000

/-- A timezone-localized instant: calendar date plus millisecond of day. -/
structure LocalInstant where
  date : Date
  msOfDay : Nat
deriving Repr, DecidableEq

/-- Well-formedness of a localized instant. -/
def LocalInstant.Valid (t : LocalInstant) : Prop :=
  t.date.Valid ∧ t.msOfDay < msPerDay

instance (t : LocalInstant) : Decidable t.Valid := by
  unfold LocalInstant.Valid; infer_instance

/-- Absolute millisecond count of an instant; the comparison order of luxon
`DateTime`s (within one zone) is the order of this value. -/
def LocalInstant.toMs (t : LocalInstant) : Nat := t.date.rata * msPerDay + t.msOfDay

/-- luxon `startOf('day')`. -/
def startOfDay (t : LocalInstant) : LocalInstant := { date := t.date, msOfDay := 0 }

/-- luxon `endOf('day')` — 23:59:59.999 local. -/
def endOfDay (t : LocalInstant) : LocalInstant := { date := t.date, msOfDay := msPerDay - 1 }

/-- The calendar date following `dt`. -/
def Date.next (dt : Date) : Date :=
  if dt.day < daysInMonth dt.year dt.month then { dt with day := dt.day + 1 }
  else if dt.month < 12 then { year := dt.year, month := dt.month + 1, day := 1 }
  else { year := dt.year + 1, month := 1, day := 1 }

/-- Advance a date by a number of days. -/
def Date.addDays : Date → Nat → Date
  | dt, 0 => dt
  | dt, n + 1 => Date.addDays dt.next n

/-- luxon `plus` restricted to a millisecond duration, carrying whole days
into the calendar date. -/
def LocalInstant.plusMs (t : LocalInstant) (ms : Nat) : LocalInstant :=
  let total := t.msOfDay + ms
  { date := t.date.addDays (total / msPerDay), msOfDay := total % msPerDay }

example : Date.rata { year := 2024, month := 1, day := 1 } -
    Date.rata { year := 2023, month := 12, day := 31 } = 1 := by decide

example : Date.weekdayToken { year := 2024, month := 1, day := 1 } = "mon" := by decide

example : Date.weekdayToken { year := 2024, month := 1, day := 6 } = "sat" := by decide

example : Date.weekdayToken { year := 1970, month := 1, day := 1 } = "thu" := by decide

/-! ## Character and string helpers

The validator and evaluator manipulate strings (regular-expression tests,
`split(':')`, `Number(...)`, ISO serialization).  We model them on the
underlying character lists. -/

/-- The decimal digit characters (the regex class `\d`). -/
def isDigitChar (c : Char) : Bool :=
  c = '0' || c = '1' || c = '2' || c = '3' || c = '4' ||
  c = '5' || c = '6' || c = '7' || c = '8' || c = '9'

/-- Numeric value of a digit character (0 for non-digits; callers guard). -/
def digitVal (c : Char) : Nat :=
  if c = '1' then 1 else if c = '2' then 2 else if c = '3' then 3
  else if c = '4' then 4 else if c = '5' then 5 else if c = '6' then 6
  else if c = '7' then 7 else if c = '8' then 8 else if c = '9' then 9 else 0

/-- The digit character for `n % 10`. -/
def natDigit (n : Nat) : Char :=
  if n % 10 = 1 then '1' else if n % 10 = 2 then '2' else if n % 10 = 3 then '3'
  else if n % 10 = 4 then '4' else if n % 10 = 5 then '5' else if n % 10 = 6 then '6'
  else if n % 10 = 7 then '7' else if n % 10 = 8 then '8' else if n % 10 = 9 then '9' else '0'

/-- Two-digit zero-padded decimal rendering (for months, days, hours). -/
def pad2 (n : Nat) : List Char := [natDigit (n / 10), natDigit n]

/-- Four-digit zero-padded decimal rendering (for years below 10000). -/
def pad4 (n : Nat) : List Char :=
  [natDigit (n / 1000), natDigit (n / 100), natDigit (n / 10), natDigit n]

/-- luxon `toISODate()` — `YYYY-MM-DD` rendering of a calendar date. -/
def Date.toISO (dt : Date) : String :=
  String.mk (pad4 dt.year ++ '-' :: (pad2 dt.month ++ '-' :: pad2 dt.day))

/-- Value of a digit-character list read as a decimal numeral. -/
def digitsToNat (cs : List Char) : Nat :=
  cs.foldl (fun acc c => acc * 10 + digitVal c) 0

/-- JavaScript `String.prototype.split(sep)` for a single-character
separator, on character lists. -/
def splitOnChar (sep : Char) : List Char → List (List Char)
  | [] => [[]]
  | c :: rest =>
    if c = sep then [] :: splitOnChar sep rest
    else
      match splitOnChar sep rest with
      | [] => [[c]]
      | g :: gs => (c :: g) :: gs

/-- JavaScript `Number(x)` on an optional string piece, restricted to the
shapes the source feeds it: `Number(undefined)` is NaN (`none` here),
`Number("")` is `0`, a digit string is its value, anything else is NaN.
(JavaScript also trims whitespace and accepts signs and fractions; the
schedule grammar never produces those, so the model omits them.) -/
def jsNumberPart : Option (List Char) → Option Nat
  | none => none
  | some [] => some 0
  | some cs => if cs.all isDigitChar then some (digitsToNat cs) else none

example : splitOnChar ':' "09:30".data = ["09".data, "30".data] := by decide

example : jsNumberPart (some "09".data) = some 9 := by decide

example : jsNumberPart (some "9a".data) = none := by decide

/-! ## `isValidISODate` (src/scheduler/validator.js)

Regex test `^\d{4}-\d{2}-\d{2}$`, then luxon round-trip: `fromISO` must
produce a valid date and `toISODate()` must reproduce the input. -/

/-- The shape test of the regex `^\d{4}-\d{2}-\d{2}$`. -/
def dateShape (cs : List Char) : Bool :=
  match cs with
  | [y1, y2, y3, y4, s1, m1, m2, s2, d1, d2] =>
    isDigitChar y1 && isDigitChar y2 && isDigitChar y3 && isDigitChar y4 &&
    s1 = '-' && isDigitChar m1 && isDigitChar m2 && s2 = '-' &&
    isDigitChar d1 && isDigitChar d2
  | _ => false

/-- Read the year/month/day numerals of a shape-conforming string. -/
def parseISOChars (cs : List Char) : Option (Nat × Nat × Nat) :=
  match cs with
  | [y1, y2, y3, y4, _, m1, m2, _, d1, d2] =>
    some (digitVal y1 * 1000 + digitVal y2 * 100 + digitVal y3 * 10 + digitVal y4,
          digitVal m1 * 10 + digitVal m2,
          digitVal d1 * 10 + digitVal d2)
  | _ => none

/-- luxon's validity of a civil year/month/day triple: the month must be
1–12 and the day 1–(days in that month). -/
def isValidYMD (y m d : Nat) : Bool :=
  1 ≤ m && m ≤ 12 && 1 ≤ d && d ≤ daysInMonth y m

/-- `isValidISODate` from src/scheduler/validator.js: regex test, then
parse (`DateTime.fromISO`), validity, and re-serialization comparison
(`parsed.toISODate() === date`). -/
def isValidISODate (s : String) : Bool :=
  if dateShape s.data then
    match parseISOChars s.data with
    | some (y, m, d) => isValidYMD y m d && Date.toISO { year := y, month := m, day := d } = s
    | none => false
  else false

example : isValidISODate "2024-02-29" = true := by decide
example : isValidISODate "2023-02-29" = false := by decide
example : isValidISODate "2024-13-01" = false := by decide
example : isValidISODate "2024-1-01" = false := by decide

/-! ## Data model of the evaluator (src/scheduler/evaluator.js)

The evaluator is exercised on validated schedules, whose rules are one of
the three variants with their required variant fields present and typed.
We model such rules as a tagged union.  `every_n_days` carries its
`start_date` in parsed form: the source stores the ISO string and parses
it with `DateTime.fromISO`, throwing on an unparsable string — a path the
validator rules out. -/

/-- The status payload of a rule (`rule.status`). -/
structure Status where
  text : String
  emoji : String
  expire_hour : Option Nat
deriving Repr, DecidableEq

/-- The variant-specific data of a rule, keyed by `rule.type`. -/
inductive RuleKind where
  | weekly (days : List String)
  | every_n_days (start_date : Date) (interval_days : Nat)
  | dates (dates : List String)
deriving Repr, DecidableEq

/-- A schedule rule.  `time` is the optional `"HH:MM"` gate string;
`only_weekdays` is read by the weekly and interval evaluators (JavaScript
truthiness of `rule.only_weekdays`). -/
structure Rule where
  id : Option String
  time : Option String
  only_weekdays : Bool
  kind : RuleKind
  status : Status
deriving Repr, DecidableEq

/-- Options consulted by the scheduler facade. -/
structure ScheduleOptions where
  clear_when_no_match : Bool
deriving Repr, DecidableEq

/-- A validated schedule configuration. -/
structure Schedule where
  timezone : String
  rules : List Rule
  options : ScheduleOptions
deriving Repr, DecidableEq

/-- The `ruleTime.split(':').map(Number)` destructuring of
`shouldExecuteAtTime`: hour and minute pieces, `none` when either piece
is NaN (an invalid luxon duration makes every later comparison false). -/
def parsedRuleTime (s : String) : Option (Nat × Nat) :=
  let parts := splitOnChar ':' s.data
  match jsNumberPart parts[0]?, jsNumberPart parts[1]? with
  | some hours, some minutes => some (hours, minutes)
  | _, _ => none

/-- `shouldExecuteAtTime(ruleTime, currentDate)` from the evaluator:
`ruleDateTime = currentDate.startOf('day').plus({hours, minutes})`;
execute iff `currentDate >= ruleDateTime` and the two share a calendar
day. -/
def shouldExecuteAtTime (ruleTime : String) (currentDate : LocalInstant) : Bool :=
  match parsedRuleTime ruleTime with
  | some (hours, minutes) =>
    let ruleDateTime := (startOfDay currentDate).plusMs ((hours * 60 + minutes) * 60000)
    ruleDateTime.toMs ≤ currentDate.toMs && currentDate.date = ruleDateTime.date
  | none => false

/-- `evaluateWeeklyRule`: the lower-cased weekday token must be listed in
`rule.days`; with `only_weekdays`, the ISO weekday must also be ≤ 5. -/
def evaluateWeeklyRule (days : List String) (onlyWeekdays : Bool)
    (localDate : LocalInstant) : Bool :=
  let dayOfWeek := localDate.date.weekdayToken
  let matchesDay := days.contains dayOfWeek
  if !matchesDay then false
  else if onlyWeekdays then localDate.date.weekdayNum ≤ 5
  else true

/-- JavaScript `a % b === 0` for a non-negative-or-negative integer `a`
and a natural `b`: `a % 0` is NaN and `NaN === 0` is false. -/
def jsRemIsZero (a : Int) (b : Nat) : Bool :=
  if b = 0 then false else a % (b : Int) = 0

/-- `evaluateIntervalRule`: `daysSinceStart = Math.floor(localDate.diff(
startDate, 'days').days)` — the whole-calendar-day difference, negative
before the start date; no match before the start, then match exactly on
multiples of `interval_days`, narrowed to Mon–Fri by `only_weekdays`. -/
def evaluateIntervalRule (startDate : Date) (intervalDays : Nat)
    (onlyWeekdays : Bool) (localDate : LocalInstant) : Bool :=
  let daysSinceStart : Int := (localDate.date.rata : Int) - (startDate.rata : Int)
  if daysSinceStart < 0 then false
  else if !jsRemIsZero daysSinceStart intervalDays then false
  else if onlyWeekdays then localDate.date.weekdayNum ≤ 5
  else true

/-- `evaluateDateRule`: the ISO rendering of the local calendar date must
be listed in `rule.dates`. -/
def evaluateDateRule (dates : List String) (localDate : LocalInstant) : Bool :=
  dates.contains localDate.date.toISO

/-- The `if (rule.time)` gate at the head of `evaluateRule`: skipped when
`rule.time` is absent or the empty string (JavaScript falsiness),
otherwise `shouldExecuteAtTime` must accept. -/
def timeGatePasses (time : Option String) (localDate : LocalInstant) : Bool :=
  match time with
  | none => true
  | some t => if t = "" then true else shouldExecuteAtTime t localDate

/-- `evaluateRule(rule, localDate)`: time gate, then dispatch on
`rule.type`.  (The `default: throw` branch for an unknown type cannot
arise for the tagged union.) -/
def evaluateRule (rule : Rule) (localDate : LocalInstant) : Bool :=
  if !timeGatePasses rule.time localDate then false
  else
    match rule.kind with
    | .weekly days => evaluateWeeklyRule days rule.only_weekdays localDate
    | .every_n_days startDate intervalDays =>
      evaluateIntervalRule startDate intervalDays rule.only_weekdays localDate
    | .dates ds => evaluateDateRule ds localDate

/-- `findMatchingRule(targetDate)` of `createScheduleEvaluator`: first
rule in document order accepted by `evaluateRule`, else null.  (The
`setZone` projection is the identity in this single-zone model.) -/
def findMatchingRule (schedule : Schedule) (targetDate : LocalInstant) : Option Rule :=
  schedule.rules.find? (fun rule => evaluateRule rule targetDate)

/-- `getAllMatchingRules(targetDate)`: every matching rule, in document
order. -/
def getAllMatchingRules (schedule : Schedule) (targetDate : LocalInstant) : List Rule :=
  schedule.rules.filter (fun rule => evaluateRule rule targetDate)

/-- `ruleMatches(rule, targetDate)`: direct check of one rule. -/
def ruleMatches (_schedule : Schedule) (rule : Rule) (targetDate : LocalInstant) : Bool :=
  evaluateRule rule targetDate

example :
    evaluateIntervalRule { year := 2024, month := 1, day := 1 } 3 false
      { date := { year := 2024, month := 1, day := 4 }, msOfDay := 0 } = true := by decide

example :
    evaluateIntervalRule { year := 2024, month := 1, day := 1 } 3 false
      { date := { year := 2024, month := 1, day := 2 }, msOfDay := 0 } = false := by decide

example :
    evaluateIntervalRule { year := 2024, month := 1, day := 1 } 3 false
      { date := { year := 2023, month := 12, day := 31 }, msOfDay := 0 } = false := by decide

example :
    evaluateIntervalRule { year := 2024, month := 1, day := 1 } 2 true
      { date := { year := 2024, month := 1, day := 6 }, msOfDay := 0 } = false := by decide

example :
    shouldExecuteAtTime "09:00"
      { date := { year := 2024, month := 1, day := 8 }, msOfDay := 8 * 3600000 + 59 * 60000 } = false := by
  decide

example :
    shouldExecuteAtTime "09:00"
      { date := { year := 2024, month := 1, day := 8 }, msOfDay := 9 * 3600000 } = true := by
  decide

/-! ## The scheduler facade (src/index.js)

`SlackStatusScheduler` holds `dryRun`, an optional Slack client and an
optional loaded schedule.  Its async methods are modelled as pure
functions from the facade state (plus a flag saying whether the injected
client's call would reject) to an outcome: the returned-or-thrown result,
the facade state afterwards, and the list of calls issued to the Slack
client. -/

/-- `_calculateExpiration(status, currentDate)`: with no (or a falsy —
see the JavaScript `!status.expire_hour` test, which conflates `0` with
absent) expire hour, end of day; otherwise `startOf('day').plus({hours})`,
falling back to end of day when that instant has already passed. -/
def calculateExpiration (status : Status) (currentDate : LocalInstant) : LocalInstant :=
  match status.expire_hour with
  | none => endOfDay currentDate
  | some h =>
    if h = 0 then endOfDay currentDate
    else
      let expireTime := (startOfDay currentDate).plusMs (h * 3600000)
      if expireTime.toMs ≤ currentDate.toMs then endOfDay currentDate
      else expireTime

/-- One invocation of the injected Slack client. -/
inductive SlackCall where
  | setStatus (text : String) (emoji : String) (expiration : LocalInstant)
  | clearCall
deriving Repr, DecidableEq

/-- The result record of a facade run (absent JavaScript fields are the
defaults `none` / `false`). -/
structure RunResult where
  success : Bool
  action : String
  ruleId : Option String
  expiration : Option LocalInstant
  dryRunFlag : Bool
  previewFlag : Bool
deriving Repr, DecidableEq

/-- The mutable configuration of a `SlackStatusScheduler` instance. -/
structure FacadeState where
  dryRun : Bool
  hasSlackClient : Bool
  schedule : Option Schedule
deriving Repr, DecidableEq

/-- Outcome of one facade method: returned value or thrown message, the
facade state afterwards, and the Slack-client calls issued. -/
structure StepOutcome where
  result : Except String RunResult
  state : FacadeState
  calls : List SlackCall
deriving Repr

/-- `_updateStatus(rule, currentDate)`: dry-run short-circuits before any
client access; a live update without a client throws; otherwise
`updateStatus` is invoked (and its rejection rethrown after logging). -/
def updateStatusStep (st : FacadeState) (rule : Rule) (currentDate : LocalInstant)
    (clientRejects : Bool) : StepOutcome :=
  let expiration := calculateExpiration rule.status currentDate
  if st.dryRun then
    { result := .ok { success := true, action := "update_status", ruleId := rule.id,
                      expiration := some expiration, dryRunFlag := true, previewFlag := false },
      state := st, calls := [] }
  else if !st.hasSlackClient then
    { result := .error "Slack client not initialized. Token required for live updates.",
      state := st, calls := [] }
  else if clientRejects then
    { result := .error "Failed to update status", state := st,
      calls := [SlackCall.setStatus rule.status.text rule.status.emoji expiration] }
  else
    { result := .ok { success := true, action := "update_status", ruleId := rule.id,
                      expiration := some expiration, dryRunFlag := false, previewFlag := false },
      state := st,
      calls := [SlackCall.setStatus rule.status.text rule.status.emoji expiration] }

/-- `_clearStatus()`: dry-run short-circuits; a live clear without a
client throws; otherwise `clearStatus` is invoked. -/
def clearStatusStep (st : FacadeState) (clientRejects : Bool) : StepOutcome :=
  if st.dryRun then
    { result := .ok { success := true, action := "clear_status", ruleId := none,
                      expiration := none, dryRunFlag := true, previewFlag := false },
      state := st, calls := [] }
  else if !st.hasSlackClient then
    { result := .error "Slack client not initialized", state := st, calls := [] }
  else if clientRejects then
    { result := .error "Failed to clear status", state := st, calls := [SlackCall.clearCall] }
  else
    { result := .ok { success := true, action := "clear_status", ruleId := none,
                      expiration := none, dryRunFlag := false, previewFlag := false },
      state := st, calls := [SlackCall.clearCall] }

/-- `run(targetDate)`: throws when uninitialized; evaluates the schedule
at the (already localized) target instant; with no matching rule, clears
when `options.clear_when_no_match` is set and otherwise reports
`no_change`; with a match, `_updateStatus`. -/
def runStep (st : FacadeState) (targetDate : LocalInstant) (clientRejects : Bool) :
    StepOutcome :=
  match st.schedule with
  | none =>
    { result := .error "Scheduler not initialized. Call initialize() first.",
      state := st, calls := [] }
  | some schedule =>
    match findMatchingRule schedule targetDate with
    | none =>
      if schedule.options.clear_when_no_match then clearStatusStep st clientRejects
      else
        { result := .ok { success := true, action := "no_change", ruleId := none,
                          expiration := none, dryRunFlag := false, previewFlag := false },
          state := st, calls := [] }
    | some rule => updateStatusStep st rule targetDate clientRejects

/-- `preview(targetDate)`: saves `dryRun`, forces it to `true`, delegates
to `run` (marking a successful result with `preview: true`), and restores
the saved flag in a `finally` block — on the throwing path as well. -/
def previewStep (st : FacadeState) (targetDate : LocalInstant) (clientRejects : Bool) :
    StepOutcome :=
  let previousDryRun := st.dryRun
  let forced : FacadeState := { st with dryRun := true }
  let o := runStep forced targetDate clientRejects
  let result : Except String RunResult :=
    match o.result with
    | .ok r => .ok { r with previewFlag := true }
    | .error e => .error e
  { result := result, state := { o.state with dryRun := previousDryRun }, calls := o.calls }

/-! ## JavaScript values and the validator (src/scheduler/validator.js)

The validator receives arbitrary parsed-JSON values.  `JValue` models
them (numbers as integers — the schedule grammar has no fractional
numbers).  Property access on a missing key yields `none` (JavaScript
`undefined`); property access on `null` throws, which the affected
functions surface as `Option.none` results. -/

/-- A parsed JSON value as handled by the JavaScript validator. -/
inductive JValue where
  | null
  | bool (b : Bool)
  | num (n : Int)
  | str (s : String)
  | arr (items : List JValue)
  | obj (fields : List (String × JValue))
deriving Repr

mutual

/-- Structural equality of values (JavaScript strict equality on the
primitives the validator compares; the model is structural on arrays and
objects, where JavaScript compares references — the validator only ever
compares primitives). -/
def JValue.beq : JValue → JValue → Bool
  | .null, .null => true
  | .bool a, .bool b => a == b
  | .num a, .num b => a == b
  | .str a, .str b => a == b
  | .arr a, .arr b => JValue.beqList a b
  | .obj a, .obj b => JValue.beqObj a b
  | _, _ => false

/-- Elementwise equality of value lists. -/
def JValue.beqList : List JValue → List JValue → Bool
  | [], [] => true
  | a :: as, b :: bs => JValue.beq a b && JValue.beqList as bs
  | _, _ => false

/-- Elementwise equality of field lists. -/
def JValue.beqObj : List (String × JValue) → List (String × JValue) → Bool
  | [], [] => true
  | (k1, v1) :: as, (k2, v2) :: bs => k1 == k2 && JValue.beq v1 v2 && JValue.beqObj as bs
  | _, _ => false

end

mutual

theorem JValue.beq_refl : ∀ a : JValue, JValue.beq a a = true
  | .null => rfl
  | .bool a => by simp [JValue.beq]
  | .num a => by simp [JValue.beq]
  | .str a => by simp [JValue.beq]
  | .arr a => by simpa [JValue.beq] using JValue.beqList_refl a
  | .obj a => by simpa [JValue.beq] using JValue.beqObj_refl a

theorem JValue.beqList_refl : ∀ a : List JValue, JValue.beqList a a = true
  | [] => rfl
  | a :: as => by
    simp only [JValue.beqList, Bool.and_eq_true]
    exact ⟨JValue.beq_refl a, JValue.beqList_refl as⟩

theorem JValue.beqObj_refl : ∀ a : List (String × JValue), JValue.beqObj a a = true
  | [] => rfl
  | (k, v) :: as => by
    simp only [JValue.beqObj, Bool.and_eq_true, beq_self_eq_true, true_and]
    exact ⟨JValue.beq_refl v, JValue.beqObj_refl as⟩

end

mutual

theorem JValue.eq_of_beq : ∀ a b : JValue, JValue.beq a b = true → a = b
  | .null, .null, _ => rfl
  | .bool a, .bool b, h => by simpa [JValue.beq] using h
  | .num a, .num b, h => by simpa [JValue.beq] using h
  | .str a, .str b, h => by simpa [JValue.beq] using h
  | .arr a, .arr b, h => by
    have := JValue.eqList_of_beq a b (by simpa [JValue.beq] using h)
    simp [this]
  | .obj a, .obj b, h => by
    have := JValue.eqObj_of_beq a b (by simpa [JValue.beq] using h)
    simp [this]
  | .null, .bool _, h | .null, .num _, h | .null, .str _, h | .null, .arr _, h
  | .null, .obj _, h | .bool _, .null, h | .bool _, .num _, h | .bool _, .str _, h
  | .bool _, .arr _, h | .bool _, .obj _, h | .num _, .null, h | .num _, .bool _, h
  | .num _, .str _, h | .num _, .arr _, h | .num _, .obj _, h | .str _, .null, h
  | .str _, .bool _, h | .str _, .num _, h | .str _, .arr _, h | .str _, .obj _, h
  | .arr _, .null, h | .arr _, .bool _, h | .arr _, .num _, h | .arr _, .str _, h
  | .arr _, .obj _, h | .obj _, .null, h | .obj _, .bool _, h | .obj _, .num _, h
  | .obj _, .str _, h | .obj _, .arr _, h => by simp [JValue.beq] at h

theorem JValue.eqList_of_beq : ∀ a b : List JValue, JValue.beqList a b = true → a = b
  | [], [], _ => rfl
  | a :: as, b :: bs, h => by
    simp only [JValue.beqList, Bool.and_eq_true] at h
    have h1 := JValue.eq_of_beq a b h.1
    have h2 := JValue.eqList_of_beq as bs h.2
    simp [h1, h2]
  | [], _ :: _, h => by simp [JValue.beqList] at h
  | _ :: _, [], h => by simp [JValue.beqList] at h

theorem JValue.eqObj_of_beq :
    ∀ a b : List (String × JValue), JValue.beqObj a b = true → a = b
  | [], [], _ => rfl
  | (k1, v1) :: as, (k2, v2) :: bs, h => by
    simp only [JValue.beqObj, Bool.and_eq_true] at h
    have hk : k1 = k2 := by simpa using h.1.1
    have hv := JValue.eq_of_beq v1 v2 h.1.2
    have hr := JValue.eqObj_of_beq as bs h.2
    simp [hk, hv, hr]
  | [], _ :: _, h => by simp [JValue.beqObj] at h
  | _ :: _, [], h => by simp [JValue.beqObj] at h

end

instance : BEq JValue := ⟨JValue.beq⟩

instance : DecidableEq JValue := fun a b =>
  if h : JValue.beq a b = true then isTrue (JValue.eq_of_beq a b h)
  else isFalse (fun he => h (he ▸ JValue.beq_refl a))

/-- JavaScript truthiness. -/
def JValue.truthy : JValue → Bool
  | .null => false
  | .bool b => b
  | .num n => n ≠ 0
  | .str s => s ≠ ""
  | .arr _ => true
  | .obj _ => true

/-- `typeof v === 'object'` (true for objects, arrays and `null`). -/
def JValue.isObjectType : JValue → Bool
  | .null => true
  | .arr _ => true
  | .obj _ => true
  | _ => false

/-- `typeof v === 'string'`. -/
def JValue.isStr : JValue → Bool
  | .str _ => true
  | _ => false

/-- `typeof v === 'boolean'`. -/
def JValue.isBool : JValue → Bool
  | .bool _ => true
  | _ => false

/-- Property read `v[key]`; `none` is JavaScript `undefined`.  (In
JavaScript an object literal with a repeated key keeps the last binding;
the model documents never repeat keys, and the first binding is used.) -/
def getField : JValue → String → Option JValue
  | .obj fields, key => (fields.find? (fun p => p.1 = key)).map Prod.snd
  | _, _ => none

/-- Truthiness of a possibly-undefined value. -/
def jsTruthyOpt : Option JValue → Bool
  | none => false
  | some v => v.truthy

/-- String interpolation of a value into a template literal (coarse for
arrays and objects; the validator only interpolates primitives in
practice). -/
def jsDisplay : JValue → String
  | .null => "null"
  | .bool b => if b then "true" else "false"
  | .num n => toString n
  | .str s => s
  | .arr _ => "[array]"
  | .obj _ => "[object Object]"

/-- The IANA zone names resolvable in the modelled environment (the tz
database behind luxon `setZone`). -/
def validZoneNames : List String :=
  ["UTC", "America/Los_Angeles", "America/New_York", "Europe/London", "Australia/Sydney"]

/-- `isValidTimezone`: `DateTime.now().setZone(tz).isValid`.  luxon
resolves strings against the zone database and treats a number as a
fixed offset; any other value yields an invalid zone. -/
def isValidTimezoneJ : JValue → Bool
  | .str s => validZoneNames.contains s
  | .num _ => true
  | _ => false

/-- Minute part of the time regex: `[0-5][0-9]`. -/
def minutePartOk (m1 m2 : Char) : Bool :=
  (m1 = '0' || m1 = '1' || m1 = '2' || m1 = '3' || m1 = '4' || m1 = '5') && isDigitChar m2

/-- The regex `^([0-1]?[0-9]|2[0-3]):[0-5][0-9]$` of `isValidTime`. -/
def timeRegexTest (cs : List Char) : Bool :=
  match cs with
  | [h, ':', m1, m2] => isDigitChar h && minutePartOk m1 m2
  | [h1, h2, ':', m1, m2] =>
    (((h1 = '0' || h1 = '1') && isDigitChar h2) ||
      (h1 = '2' && (h2 = '0' || h2 = '1' || h2 = '2' || h2 = '3'))) && minutePartOk m1 m2
  | _ => false

/-- `isValidTime(time)`: string type test plus the regex. -/
def isValidTimeJ : JValue → Bool
  | .str s => timeRegexTest s.data
  | _ => false

/-- JavaScript `String.prototype.trim()` (on character lists). -/
def jsTrim (cs : List Char) : List Char :=
  ((cs.dropWhile Char.isWhitespace).reverse.dropWhile Char.isWhitespace).reverse

/-- Character class `[a-z0-9_+-]` of the Slack emoji short-code regex. -/
def isSlackNameChar (c : Char) : Bool :=
  ('a' ≤ c && c ≤ 'z') || isDigitChar c || c = '_' || c = '+' || c = '-'

/-- The regex `^:[a-z0-9_+-]+:$`. -/
def slackEmojiTest (cs : List Char) : Bool :=
  match cs with
  | ':' :: rest =>
    rest.getLast? = some ':' && rest.dropLast ≠ [] && rest.dropLast.all isSlackNameChar
  | _ => false

/-- `isValidEmoji(emoji)` (the validator calls it on strings only): not
blank after trimming; a well-formed `:name:` short-code is accepted; any
other string starting or ending with a colon is a malformed short-code;
everything else is accepted permissively as a Unicode emoji. -/
def isValidEmoji (s : String) : Bool :=
  if (jsTrim s.data).length = 0 then false
  else if slackEmojiTest s.data then true
  else if s.data.head? = some ':' || s.data.getLast? = some ':' then false
  else true

/-- `isValidISODate` applied to an arbitrary value (string type test at
the head of the function). -/
def isValidISODateJ : JValue → Bool
  | .str s => isValidISODate s
  | _ => false

/-- The text checks of `validateStatus`: present, a string, at most 100
characters. -/
def statusTextErrors (status : JValue) : List String :=
  match getField status "text" with
  | some (JValue.str s) =>
    if s = "" then ["Status must specify text"]
    else if s.length > 100 then ["Status text must be 100 characters or less"] else []
  | some v => if v.truthy then ["Status text must be a string"] else ["Status must specify text"]
  | none => ["Status must specify text"]

/-- The emoji checks of `validateStatus`: present, a string, valid
format. -/
def statusEmojiErrors (status : JValue) : List String :=
  match getField status "emoji" with
  | some (JValue.str s) =>
    if s = "" then ["Status must specify emoji"]
    else if !isValidEmoji s then
      ["Invalid emoji format: " ++ s ++ ". Must be Unicode emoji or Slack emoji format"]
    else []
  | some v => if v.truthy then ["Status emoji must be a string"] else ["Status must specify emoji"]
  | none => ["Status must specify emoji"]

/-- The `expire_hour` check of `validateStatus`: when present (not
undefined), an integer between 0 and 23 — 0 is accepted here. -/
def statusExpireErrors (status : JValue) : List String :=
  match getField status "expire_hour" with
  | some (JValue.num n) =>
    if n < 0 || 23 < n then ["expire_hour must be an integer between 0 and 23"] else []
  | some _ => ["expire_hour must be an integer between 0 and 23"]
  | none => []

/-- `validateStatus(status)` from the validator. -/
def validateStatus (status : JValue) : List String :=
  if !(status.truthy && status.isObjectType) then ["Status must be an object"]
  else statusTextErrors status ++ statusEmojiErrors status ++ statusExpireErrors status

/-- `validateOptions(options)`: field-by-field type checks of the
optional options record. -/
def validateOptions (options : JValue) : List String :=
  if !options.isObjectType then ["Options must be an object"]
  else
    let clearErrors :=
      match getField options "clear_when_no_match" with
      | some v => if !v.isBool then ["clear_when_no_match must be a boolean"] else []
      | none => []
    let logErrors :=
      match getField options "log_level" with
      | some (JValue.str s) =>
        if ["error", "warn", "info", "debug"].contains s then []
        else ["Invalid log_level: " ++ s ++ ". Must be one of: error, warn, info, debug"]
      | some v => ["Invalid log_level: " ++ jsDisplay v ++ ". Must be one of: error, warn, info, debug"]
      | none => []
    let retryErrors :=
      match getField options "retry_attempts" with
      | some (JValue.num n) => if n < 0 then ["retry_attempts must be a non-negative integer"] else []
      | some _ => ["retry_attempts must be a non-negative integer"]
      | none => []
    let delayErrors :=
      match getField options "retry_delay_ms" with
      | some (JValue.num n) => if n < 0 then ["retry_delay_ms must be a non-negative integer"] else []
      | some _ => ["retry_delay_ms must be a non-negative integer"]
      | none => []
    clearErrors ++ logErrors ++ retryErrors ++ delayErrors

/-- The legal weekday tokens of a weekly rule. -/
def validDayTokens : List String := ["mon", "tue", "wed", "thu", "fri", "sat", "sun"]

/-- `validDays.includes(day)` — strict-equality membership, so any
non-string day is invalid. -/
def isValidDayToken : JValue → Bool
  | .str s => validDayTokens.contains s
  | _ => false

/-- The `only_weekdays` type check shared by weekly and interval rules. -/
def onlyWeekdaysErrors (rule : JValue) : List String :=
  match getField rule "only_weekdays" with
  | some v => if !v.isBool then ["only_weekdays must be a boolean"] else []
  | none => []

/-- `validateWeeklyRule(rule)`: `days` must be an array; its entries must
be legal tokens, at least one, no duplicates; `only_weekdays` must be a
boolean when present. -/
def validateWeeklyRuleJ (rule : JValue) : List String :=
  let daysErrors :=
    match getField rule "days" with
    | some (JValue.arr days) =>
      let invalidDays := days.filter (fun d => !isValidDayToken d)
      (if invalidDays ≠ [] then
        ["Invalid days: " ++ String.intercalate ", " (invalidDays.map jsDisplay) ++
         ". Must be: " ++ String.intercalate ", " validDayTokens]
       else []) ++
      (if days = [] then ["Weekly rule must specify at least one day"] else []) ++
      (if days.dedup.length ≠ days.length then ["Weekly rule contains duplicate days"] else [])
    | _ => ["Weekly rule must have a days array"]
  daysErrors ++ onlyWeekdaysErrors rule

/-- `validateIntervalRule(rule)`: `start_date` must be present and a
valid ISO date; `interval_days` must be present (not undefined or null)
and a positive integer; `only_weekdays` as above. -/
def validateIntervalRuleJ (rule : JValue) : List String :=
  let startErrors :=
    match getField rule "start_date" with
    | some v =>
      if !v.truthy then ["Interval rule must specify start_date"]
      else if !isValidISODateJ v then
        ["Invalid start_date format: " ++ jsDisplay v ++ ". Must be YYYY-MM-DD"]
      else []
    | none => ["Interval rule must specify start_date"]
  let intervalErrors :=
    match getField rule "interval_days" with
    | some JValue.null => ["Interval rule must specify interval_days"]
    | some (JValue.num n) => if n < 1 then ["interval_days must be a positive integer"] else []
    | some _ => ["interval_days must be a positive integer"]
    | none => ["Interval rule must specify interval_days"]
  startErrors ++ intervalErrors ++ onlyWeekdaysErrors rule

/-- `validateDateRule(rule)`: `dates` must be an array with at least one
entry, all valid ISO dates, no duplicates. -/
def validateDateRuleJ (rule : JValue) : List String :=
  match getField rule "dates" with
  | some (JValue.arr ds) =>
    (if ds = [] then ["Date rule must specify at least one date"] else []) ++
    (let invalidDates := ds.filter (fun d => !isValidISODateJ d)
     if invalidDates ≠ [] then
       ["Invalid date formats: " ++ String.intercalate ", " (invalidDates.map jsDisplay) ++
        ". Must be YYYY-MM-DD"]
     else []) ++
    (if ds.dedup.length ≠ ds.length then ["Date rule contains duplicate dates"] else [])
  | _ => ["Date rule must have a dates array"]

/-- The id check of `validateRule`: when truthy, it must be a string. -/
def ruleIdErrors (rule : JValue) : List String :=
  match getField rule "id" with
  | some v => if v.truthy && !v.isStr then ["Rule ID must be a string"] else []
  | none => []

/-- The type checks of `validateRule`: present and one of the three
variants. -/
def ruleTypeErrors (rule : JValue) : List String :=
  if !jsTruthyOpt (getField rule "type") then ["Rule must specify a type"]
  else
    match getField rule "type" with
    | some (JValue.str s) =>
      if ["weekly", "every_n_days", "dates"].contains s then []
      else ["Invalid rule type: " ++ s ++ ". Must be weekly, every_n_days, or dates"]
    | some v => ["Invalid rule type: " ++ jsDisplay v ++ ". Must be weekly, every_n_days, or dates"]
    | none => []

/-- The time check of `validateRule`: a truthy time must pass
`isValidTime`. -/
def ruleTimeErrors (rule : JValue) : List String :=
  match getField rule "time" with
  | some v =>
    if v.truthy && !isValidTimeJ v then
      ["Invalid time format: " ++ jsDisplay v ++ ". Must be HH:MM format"]
    else []
  | none => []

/-- The status checks of `validateRule`: present, then delegated to
`validateStatus` with each error prefixed. -/
def ruleStatusErrors (rule : JValue) : List String :=
  if !jsTruthyOpt (getField rule "status") then ["Rule must specify a status"]
  else (validateStatus ((getField rule "status").getD JValue.null)).map (fun e => "Status: " ++ e)

/-- The variant dispatch of `validateRule` on `rule.type`. -/
def ruleVariantErrors (rule : JValue) : List String :=
  match getField rule "type" with
  | some (JValue.str "weekly") => validateWeeklyRuleJ rule
  | some (JValue.str "every_n_days") => validateIntervalRuleJ rule
  | some (JValue.str "dates") => validateDateRuleJ rule
  | _ => []

/-- `validateRule(rule)`: object guard, then id / type / time / status
checks and the variant dispatch on `rule.type`. -/
def validateRule (rule : JValue) : List String :=
  if !(rule.truthy && rule.isObjectType) then ["Rule must be an object"]
  else ruleIdErrors rule ++ ruleTypeErrors rule ++ ruleTimeErrors rule ++
    ruleStatusErrors rule ++ ruleVariantErrors rule

/-- The result record of `validateSchedule`. -/
structure VResult where
  valid : Bool
  errors : List String
deriving Repr, DecidableEq

/-- The per-rule `forEach` of `validateSchedule`: each error of rule
`i` (0-based here) is prefixed with its 1-based index. -/
def ruleListErrors : Nat → List JValue → List String
  | _, [] => []
  | i, r :: rest =>
    (validateRule r).map (fun e => "Rule " ++ toString (i + 1) ++ ": " ++ e) ++
    ruleListErrors (i + 1) rest

/-- `schedule.rules.map(rule => rule.id).filter(Boolean)`.  Reading the
`id` property of a `null` rule throws a TypeError, surfaced as `none`. -/
def ruleIdsOf : List JValue → Option (List JValue)
  | [] => some []
  | JValue.null :: _ => none
  | r :: rest =>
    (ruleIdsOf rest).map (fun ids =>
      match getField r "id" with
      | some v => if v.truthy then v :: ids else ids
      | none => ids)

/-- `ruleIds.filter((id, index) => ruleIds.indexOf(id) !== index)`: the
occurrences preceded by an equal earlier entry. -/
def dupsAfterFirst (seen : List JValue) : List JValue → List JValue
  | [] => []
  | x :: rest =>
    if seen.contains x then x :: dupsAfterFirst (x :: seen) rest
    else dupsAfterFirst (x :: seen) rest

/-- The `version` check of `validateSchedule` (`schedule.version !== 1`
— strict equality against the number 1). -/
def versionErrors (schedule : JValue) : List String :=
  match getField schedule "version" with
  | some (JValue.num 1) => []
  | _ => ["Schedule version must be 1"]

/-- The `timezone` checks of `validateSchedule`. -/
def timezoneErrors (schedule : JValue) : List String :=
  if !jsTruthyOpt (getField schedule "timezone") then ["Schedule must specify a timezone"]
  else if !isValidTimezoneJ ((getField schedule "timezone").getD JValue.null) then
    ["Invalid timezone: " ++ jsDisplay ((getField schedule "timezone").getD JValue.null)]
  else []

/-- The `rules` checks of `validateSchedule`: array present and
non-empty, per-rule validation, duplicate-id detection (which throws on a
`null` rule — `none` here). -/
def rulesErrors (schedule : JValue) : Option (List String) :=
  match getField schedule "rules" with
  | some (JValue.arr rules) =>
    if rules = [] then some ["Schedule must contain at least one rule"]
    else
      match ruleIdsOf rules with
      | none => none
      | some ids =>
        let dups := dupsAfterFirst [] ids
        some (ruleListErrors 0 rules ++
          (if dups = [] then []
           else ["Duplicate rule IDs found: " ++ String.intercalate ", " (dups.map jsDisplay)]))
  | _ => some ["Schedule must contain a rules array"]

/-- The `options` checks of `validateSchedule`. -/
def optionsErrors (schedule : JValue) : List String :=
  match getField schedule "options" with
  | some opts =>
    if opts.truthy then (validateOptions opts).map (fun e => "Options: " ++ e) else []
  | none => []

/-- `validateSchedule(schedule)`: non-object documents short-circuit to a
single error; otherwise the version / timezone / rules / options error
lists are collected exhaustively, and `valid` is `errors.length === 0`.
A `none` result is the TypeError thrown by the duplicate-id scan when the
rules array contains `null`. -/
def validateSchedule (schedule : JValue) : Option VResult :=
  if !(schedule.truthy && schedule.isObjectType) then
    some { valid := false, errors := ["Schedule must be an object"] }
  else
    match rulesErrors schedule with
    | none => none
    | some rErrs =>
      let errors := versionErrors schedule ++ timezoneErrors schedule ++ rErrs ++
        optionsErrors schedule
      some { valid := errors.isEmpty, errors := errors }

/-! ### `quickValidate` (src/scheduler/validator.js)

The fast-path check: presence of a timezone, a non-empty `rules`
collection (via `schedule.rules?.length`), and per rule the presence of
`type`, `status?.text` and `status?.emoji`.  `rules.forEach` throws on a
truthy non-array `rules` value, and `rule.type` throws on a `null` rule;
both surface as `none`. -/

/-- Truthiness of JavaScript `v?.length` (arrays and strings have a
`length`; other values give `undefined`). -/
def jsLengthTruthy : Option JValue → Bool
  | some (.arr l) => l.length ≠ 0
  | some (.str s) => s.length ≠ 0
  | _ => false

/-- The per-rule checks of `quickValidate` (`none`: `rule.type` threw on
a `null` rule). -/
def quickRuleErrors (i : Nat) (r : JValue) : Option (List String) :=
  match r with
  | .null => none
  | _ =>
    let statusField := getField r "status"
    let textField := match statusField with
      | some st => getField st "text"
      | none => none
    let emojiField := match statusField with
      | some st => getField st "emoji"
      | none => none
    some
      ((if !jsTruthyOpt (getField r "type") then
          ["Rule " ++ toString (i + 1) ++ ": Missing type"] else []) ++
       (if !jsTruthyOpt textField then
          ["Rule " ++ toString (i + 1) ++ ": Missing status text"] else []) ++
       (if !jsTruthyOpt emojiField then
          ["Rule " ++ toString (i + 1) ++ ": Missing status emoji"] else []))

/-- The `forEach` of `quickValidate` over the rules array. -/
def quickRulesErrors : Nat → List JValue → Option (List String)
  | _, [] => some []
  | i, r :: rest =>
    match quickRuleErrors i r, quickRulesErrors (i + 1) rest with
    | some es, some rest' => some (es ++ rest')
    | _, _ => none

/-- `quickValidate(schedule)`. -/
def quickValidate (schedule : JValue) : Option VResult :=
  if !schedule.truthy then some { valid := false, errors := ["No schedule provided"] }
  else
    let e1 := if !jsTruthyOpt (getField schedule "timezone") then ["Missing timezone"] else []
    let rulesField := getField schedule "rules"
    let e2 := if !jsLengthTruthy rulesField then ["No rules defined"] else []
    match rulesField with
    | some rules =>
      if rules.truthy then
        match rules with
        | .arr items =>
          match quickRulesErrors 0 items with
          | some es =>
            some { valid := (e1 ++ e2 ++ es).isEmpty, errors := e1 ++ e2 ++ es }
          | none => none
        | _ => none
      else some { valid := (e1 ++ e2).isEmpty, errors := e1 ++ e2 }
    | none => some { valid := (e1 ++ e2).isEmpty, errors := e1 ++ e2 }

/-! ## Helper lemmas -/

theorem plusMs_small (t : LocalInstant) (ms : Nat) (h : t.msOfDay + ms < msPerDay) :
    t.plusMs ms = { date := t.date, msOfDay := t.msOfDay + ms } := by
  show ({ date := t.date.addDays ((t.msOfDay + ms) / msPerDay),
          msOfDay := (t.msOfDay + ms) % msPerDay } : LocalInstant) = _
  rw [Nat.div_eq_of_lt h, Nat.mod_eq_of_lt h]
  simp [Date.addDays]

/-- Characterization of the time gate for an in-range hour and minute:
it holds exactly when the millisecond of day has reached the gate. -/
theorem shouldExecuteAtTime_eq (s : String) (t : LocalInstant) (hh mm : Nat)
    (hparse : parsedRuleTime s = some (hh, mm)) (hhh : hh ≤ 23) (hmm : mm ≤ 59) :
    shouldExecuteAtTime s t = decide ((hh * 60 + mm) * 60000 ≤ t.msOfDay) := by
  have hlt : (hh * 60 + mm) * 60000 < msPerDay := by
    have h1 : hh * 60 + mm ≤ 23 * 60 + 59 := by omega
    have h2 : (hh * 60 + mm) * 60000 ≤ 1439 * 60000 := by
      exact Nat.mul_le_mul_right _ h1
    simp only [msPerDay]; omega
  unfold shouldExecuteAtTime
  rw [hparse]
  have hplus : (startOfDay t).plusMs ((hh * 60 + mm) * 60000) =
      { date := t.date, msOfDay := (hh * 60 + mm) * 60000 } := by
    have hsm : (startOfDay t).msOfDay + (hh * 60 + mm) * 60000 < msPerDay := by
      simpa [startOfDay] using hlt
    simpa [startOfDay] using plusMs_small (startOfDay t) ((hh * 60 + mm) * 60000) hsm
  simp only [hplus, LocalInstant.toMs]
  simp [Nat.add_le_add_iff_left]

/-- A time string the gate can parse is not the empty string. -/
theorem parsedRuleTime_ne_empty (s : String) (hh mm : Nat)
    (hparse : parsedRuleTime s = some (hh, mm)) : s ≠ "" := by
  intro he
  rw [he] at hparse
  exact Option.noConfusion ((rfl : parsedRuleTime "" = none) ▸ hparse)

/-! ## Claim theorems -/

/-- C2.  A rule whose `time` field parses as the in-range clock time
HH:MM matches only once the localized instant has reached HH:MM on its
own calendar day: the gate is exactly "millisecond of day has reached
the gate", and at any earlier clock time of any day — including a day
after one on which the gate was passed — the matcher returns false
regardless of the type-specific condition. -/
theorem claim_C2 (rule : Rule) (t : LocalInstant) (s : String) (hh mm : Nat)
    (htime : rule.time = some s) (hparse : parsedRuleTime s = some (hh, mm))
    (hhh : hh ≤ 23) (hmm : mm ≤ 59) :
    shouldExecuteAtTime s t = decide ((hh * 60 + mm) * 60000 ≤ t.msOfDay) ∧
    (t.msOfDay < (hh * 60 + mm) * 60000 → evaluateRule rule t = false) := by
  refine ⟨shouldExecuteAtTime_eq s t hh mm hparse hhh hmm, fun hlt => ?_⟩
  have hgate : timeGatePasses rule.time t = false := by
    rw [htime]
    show (if s = "" then true else shouldExecuteAtTime s t) = false
    rw [if_neg (parsedRuleTime_ne_empty s hh mm hparse),
      shouldExecuteAtTime_eq s t hh mm hparse hhh hmm]
    simpa using Nat.not_le_of_lt hlt
  unfold evaluateRule
  rw [hgate]
  rfl

/-- Concrete data for the C2 witness: a weekly rule gated at 09:00 and
the instant 2024-01-08T08:59 local. -/
def c2Rule : Rule :=
  { id := some "weekday-focus", time := some "09:00", only_weekdays := false,
    kind := .weekly ["mon", "tue", "wed", "thu", "fri"],
    status := { text := "Deep work", emoji := ":brain:", expire_hour := some 11 } }

/-- The instant 2024-01-08T08:59:00.000 in the schedule zone. -/
def c2Instant : LocalInstant :=
  { date := { year := 2024, month := 1, day := 8 }, msOfDay := 8 * 3600000 + 59 * 60000 }

/-- Witness for C2 at the concrete rule and instant. -/
theorem claim_C2_witness :
    (shouldExecuteAtTime "09:00" c2Instant =
      decide ((9 * 60 + 0) * 60000 ≤ c2Instant.msOfDay)) ∧
    (c2Instant.msOfDay < (9 * 60 + 0) * 60000 → evaluateRule c2Rule c2Instant = false) :=
  claim_C2 c2Rule c2Instant "09:00" 9 0 rfl (by decide) (by decide) (by decide)

/-- C3.  An `every_n_days` rule with parsed start date `s` and positive
interval `n`, at an instant whose time gate passes: no match strictly
before the start date; from the start date on, a match exactly when the
whole-calendar-day difference is a multiple of `n` and, under
`only_weekdays`, the day is Monday–Friday; in particular the start date
itself (day 0) matches. -/
theorem claim_C3 (rule : Rule) (s : Date) (n : Nat) (t : LocalInstant)
    (hkind : rule.kind = .every_n_days s n) (hn : 0 < n)
    (hgate : timeGatePasses rule.time t = true) :
    ((t.date.rata : Int) - (s.rata : Int) < 0 → evaluateRule rule t = false) ∧
    (0 ≤ (t.date.rata : Int) - (s.rata : Int) →
      (evaluateRule rule t = true ↔
        ((t.date.rata : Int) - (s.rata : Int)) % (n : Int) = 0 ∧
          (rule.only_weekdays = true → t.date.weekdayNum ≤ 5))) ∧
    (t.date = s → (rule.only_weekdays = true → t.date.weekdayNum ≤ 5) →
      evaluateRule rule t = true) := by
  have her : evaluateRule rule t =
      evaluateIntervalRule s n rule.only_weekdays t := by
    unfold evaluateRule
    rw [hgate, hkind]
    rfl
  have hne : n ≠ 0 := Nat.pos_iff_ne_zero.mp hn
  refine ⟨fun hneg => ?_, fun hnonneg => ?_, fun hdate hweek => ?_⟩
  · rw [her]
    unfold evaluateIntervalRule
    rw [if_pos hneg]
  · rw [her]
    unfold evaluateIntervalRule
    rw [if_neg (by omega)]
    unfold jsRemIsZero
    rw [if_neg hne]
    by_cases hrem : ((t.date.rata : Int) - (s.rata : Int)) % (n : Int) = 0
    · by_cases how : rule.only_weekdays = true
      · simp [hrem, how]
      · simp only [Bool.not_eq_true] at how
        simp [hrem, how]
    · simp [hrem]
  · rw [her]
    unfold evaluateIntervalRule
    have hz : (t.date.rata : Int) - (s.rata : Int) = 0 := by rw [hdate]; ring
    rw [hz]
    rw [if_neg (by omega)]
    unfold jsRemIsZero
    rw [if_neg hne]
    by_cases how : rule.only_weekdays = true
    · simp [how, hweek how]
    · simp only [Bool.not_eq_true] at how
      simp [how]

/-- The interval rule of the spec example: start 2024-01-01, every 3
days. -/
def c3Rule : Rule :=
  { id := some "every-three", time := none, only_weekdays := false,
    kind := .every_n_days { year := 2024, month := 1, day := 1 } 3,
    status := { text := "Watering plants", emoji := ":potted_plant:", expire_hour := none } }

/-- The instant 2024-01-04T00:00 local. -/
def c3Instant : LocalInstant :=
  { date := { year := 2024, month := 1, day := 4 }, msOfDay := 0 }

/-- Witness for C3: the rule matches on 2024-01-04 (day 3). -/
theorem claim_C3_witness : evaluateRule c3Rule c3Instant = true :=
  ((claim_C3 c3Rule { year := 2024, month := 1, day := 1 } 3 c3Instant rfl (by decide)
    (by decide)).2.1 (by decide)).mpr (by decide)

/-- The status and instant refuting C4 as stated: no expire hour, and
the instant is the very last millisecond of its local day. -/
def c4Status : Status := { text := "Deep work", emoji := ":brain:", expire_hour := none }

/-- 2024-01-08T23:59:59.999 local — a well-formed instant. -/
def c4Instant : LocalInstant :=
  { date := { year := 2024, month := 1, day := 8 }, msOfDay := msPerDay - 1 }

/-- Counterexample to C4 as stated: at the last millisecond of a local
day the computed expiration equals the instant itself, so the returned
expiry is not strictly after `t`. -/
theorem claim_C4_counterexample :
    c4Instant.Valid ∧ calculateExpiration c4Status c4Instant = c4Instant := by
  constructor
  · decide
  · rfl

/-- Unfolding of `_calculateExpiration` with no expire hour. -/
theorem calculateExpiration_eq_none (status : Status) (t : LocalInstant)
    (h : status.expire_hour = none) : calculateExpiration status t = endOfDay t := by
  unfold calculateExpiration
  rw [h]

/-- Unfolding of `_calculateExpiration` with an expire hour present. -/
theorem calculateExpiration_eq_some (status : Status) (t : LocalInstant) (h : Nat)
    (hs : status.expire_hour = some h) :
    calculateExpiration status t =
      (if h = 0 then endOfDay t
       else if ((startOfDay t).plusMs (h * 3600000)).toMs ≤ t.toMs then endOfDay t
       else (startOfDay t).plusMs (h * 3600000)) := by
  unfold calculateExpiration
  rw [hs]

/-- C4 (amended).  With no expire hour the expiration is the end of the
local day; with expire hour `h ≤ 23` it is the instant h:00 of the same
calendar day when that is strictly after `t` and the end of the local day
otherwise (for `h = 0` the candidate 00:00 can never be strictly after
`t`, and the falsiness test of the code yields the same end-of-day
result).  The returned expiry is never before `t`, and is strictly after
`t` except when `t` is already the final millisecond of its local day. -/
theorem claim_C4 (status : Status) (t : LocalInstant) (hv : t.msOfDay < msPerDay) :
    (status.expire_hour = none → calculateExpiration status t = endOfDay t) ∧
    (∀ h, status.expire_hour = some h → h ≤ 23 →
      calculateExpiration status t =
        (if t.toMs < ((startOfDay t).plusMs (h * 3600000)).toMs
         then (startOfDay t).plusMs (h * 3600000) else endOfDay t)) ∧
    t.toMs ≤ (calculateExpiration status t).toMs ∧
    (t.msOfDay < msPerDay - 1 → t.toMs < (calculateExpiration status t).toMs) := by
  have hplus : ∀ h : Nat, h ≤ 23 →
      (startOfDay t).plusMs (h * 3600000) =
        { date := t.date, msOfDay := h * 3600000 } := by
    intro h hh
    have hsm : (startOfDay t).msOfDay + h * 3600000 < msPerDay := by
      simp only [startOfDay, msPerDay]
      omega
    simpa [startOfDay] using plusMs_small (startOfDay t) (h * 3600000) hsm
  have hendle : t.toMs ≤ (endOfDay t).toMs := by
    simp only [LocalInstant.toMs, endOfDay]
    omega
  have hendlt : t.msOfDay < msPerDay - 1 → t.toMs < (endOfDay t).toMs := by
    intro hlt
    simp only [LocalInstant.toMs, endOfDay]
    omega
  refine ⟨fun hn => calculateExpiration_eq_none status t hn, fun h hs hh => ?_, ?_, ?_⟩
  · rw [calculateExpiration_eq_some status t h hs]
    by_cases h0 : h = 0
    · subst h0
      rw [if_pos rfl]
      have hnl : ¬ t.toMs < ((startOfDay t).plusMs (0 * 3600000)).toMs := by
        rw [hplus 0 (by omega)]
        simp only [LocalInstant.toMs]
        omega
      rw [if_neg hnl]
    · rw [if_neg h0]
      by_cases hle : ((startOfDay t).plusMs (h * 3600000)).toMs ≤ t.toMs
      · rw [if_pos hle, if_neg (by omega)]
      · rw [if_neg hle, if_pos (by omega)]
  · cases hst : status.expire_hour with
    | none => rw [calculateExpiration_eq_none status t hst]; exact hendle
    | some h =>
      rw [calculateExpiration_eq_some status t h hst]
      by_cases h0 : h = 0
      · rw [if_pos h0]; exact hendle
      · rw [if_neg h0]
        by_cases hle : ((startOfDay t).plusMs (h * 3600000)).toMs ≤ t.toMs
        · rw [if_pos hle]; exact hendle
        · rw [if_neg hle]; omega
  · intro hlt
    cases hst : status.expire_hour with
    | none => rw [calculateExpiration_eq_none status t hst]; exact hendlt hlt
    | some h =>
      rw [calculateExpiration_eq_some status t h hst]
      by_cases h0 : h = 0
      · rw [if_pos h0]; exact hendlt hlt
      · rw [if_neg h0]
        by_cases hle : ((startOfDay t).plusMs (h * 3600000)).toMs ≤ t.toMs
        · rw [if_pos hle]; exact hendlt hlt
        · rw [if_neg hle]; omega

/-- Witness for C4 (amended) at a concrete status and instant: a match
at 22:00 local with expire hour 17 falls back to end of day. -/
theorem claim_C4_witness :
    calculateExpiration { text := "On shift", emoji := ":clock5:", expire_hour := some 17 }
        { date := { year := 2024, month := 1, day := 8 }, msOfDay := 22 * 3600000 } =
      (if ({ date := { year := 2024, month := 1, day := 8 },
             msOfDay := 22 * 3600000 } : LocalInstant).toMs <
            ((startOfDay { date := { year := 2024, month := 1, day := 8 },
                           msOfDay := 22 * 3600000 }).plusMs (17 * 3600000)).toMs
       then (startOfDay { date := { year := 2024, month := 1, day := 8 },
                          msOfDay := 22 * 3600000 }).plusMs (17 * 3600000)
       else endOfDay { date := { year := 2024, month := 1, day := 8 },
                       msOfDay := 22 * 3600000 }) :=
  ((claim_C4 { text := "On shift", emoji := ":clock5:", expire_hour := some 17 }
    { date := { year := 2024, month := 1, day := 8 }, msOfDay := 22 * 3600000 }
    (by decide)).2.1) 17 rfl (by decide)

/-- C10.  A status with `expire_hour` 0 is treated exactly like one with
no `expire_hour` at all: the expiration is the end of the local day (in
particular not a midnight), because `!status.expire_hour` does not
distinguish 0 from absent — while the validator accepts 0 as a legal
`expire_hour`. -/
theorem claim_C10 (text emoji : String) (t : LocalInstant) :
    calculateExpiration { text := text, emoji := emoji, expire_hour := some 0 } t =
      calculateExpiration { text := text, emoji := emoji, expire_hour := none } t ∧
    calculateExpiration { text := text, emoji := emoji, expire_hour := some 0 } t =
      endOfDay t ∧
    (calculateExpiration { text := text, emoji := emoji, expire_hour := some 0 } t).msOfDay ≠ 0 ∧
    validateStatus (JValue.obj [("text", JValue.str "Lunch"), ("emoji", JValue.str ":pizza:"),
      ("expire_hour", JValue.num 0)]) = [] := by
  refine ⟨rfl, rfl, ?_, by decide⟩
  show (endOfDay t).msOfDay ≠ 0
  simp [endOfDay, msPerDay]

/-- C7.  For every facade state (any loaded schedule or none, any
configured dry-run flag), every target instant and either behaviour of
the injected client, `preview` issues no `setStatus`/`clearStatus` call,
and the dry-run flag after the call equals its value from before — on
the throwing path as well as the returning one. -/
theorem claim_C7 (st : FacadeState) (t : LocalInstant) (clientRejects : Bool) :
    (previewStep st t clientRejects).calls = [] ∧
    (previewStep st t clientRejects).state.dryRun = st.dryRun := by
  unfold previewStep
  refine ⟨?_, rfl⟩
  unfold runStep
  cases hsch : st.schedule with
  | none => rfl
  | some schedule =>
    cases hfind : findMatchingRule schedule t with
    | none =>
      simp only [hfind]
      by_cases hclear : schedule.options.clear_when_no_match
      · simp [hclear, clearStatusStep]
      · simp [hclear]
    | some rule =>
      simp only [hfind]
      simp [updateStatusStep]

/-- The Monday-only weekly rule of the C8 schedule. -/
def c8Rule : Rule :=
  { id := some "mon-only", time := none, only_weekdays := false,
    kind := .weekly ["mon"],
    status := { text := "Focus", emoji := ":dart:", expire_hour := none } }

/-- The live, clientless facade state used to refute C8 as stated: a
Monday-only weekly rule, `clear_when_no_match` off. -/
def c8Schedule : Schedule :=
  { timezone := "UTC", rules := [c8Rule], options := { clear_when_no_match := false } }

/-- Live mode, no Slack client, schedule loaded. -/
def c8State : FacadeState :=
  { dryRun := false, hasSlackClient := false, schedule := some c8Schedule }

/-- 2024-01-09T10:00 local — a Tuesday, matching no rule. -/
def c8Instant : LocalInstant :=
  { date := { year := 2024, month := 1, day := 9 }, msOfDay := 10 * 3600000 }

/-- Counterexample to C8 as stated: a live `run` with no status-setting
collaborator completes successfully (action `no_change`) when no rule
matches and `clear_when_no_match` is off — it does not fail with a
credential-missing error. -/
theorem claim_C8_counterexample :
    (runStep c8State c8Instant false).result =
      Except.ok { success := true, action := "no_change", ruleId := none,
                  expiration := none, dryRunFlag := false, previewFlag := false } ∧
    (runStep c8State c8Instant false).calls = [] := by
  constructor <;> rfl

/-- C8 (amended).  On an initialized live facade with no status-setting
collaborator, `run` fails with the client-not-initialized error whenever
it would have to contact the collaborator — a rule matched, or no rule
matched with `clear_when_no_match` set — and never issues a client call;
when no rule matches and `clear_when_no_match` is off it returns the
successful `no_change` result (again without any client call). -/
theorem claim_C8 (st : FacadeState) (schedule : Schedule) (t : LocalInstant)
    (clientRejects : Bool) (hsch : st.schedule = some schedule)
    (hlive : st.dryRun = false) (hnoclient : st.hasSlackClient = false) :
    (∀ rule, findMatchingRule schedule t = some rule →
      (runStep st t clientRejects).result =
        Except.error "Slack client not initialized. Token required for live updates." ∧
      (runStep st t clientRejects).calls = []) ∧
    (findMatchingRule schedule t = none → schedule.options.clear_when_no_match = true →
      (runStep st t clientRejects).result = Except.error "Slack client not initialized" ∧
      (runStep st t clientRejects).calls = []) ∧
    (findMatchingRule schedule t = none → schedule.options.clear_when_no_match = false →
      (runStep st t clientRejects).result =
        Except.ok { success := true, action := "no_change", ruleId := none,
                    expiration := none, dryRunFlag := false, previewFlag := false } ∧
      (runStep st t clientRejects).calls = []) := by
  refine ⟨fun rule hfind => ?_, fun hfind hclear => ?_, fun hfind hclear => ?_⟩
  · unfold runStep
    rw [hsch]
    simp only [hfind]
    simp [updateStatusStep, hlive, hnoclient]
  · unfold runStep
    rw [hsch]
    simp only [hfind]
    simp [hclear, clearStatusStep, hlive, hnoclient]
  · unfold runStep
    rw [hsch]
    simp only [hfind]
    simp [hclear]

/-- 2024-01-08T10:00 local — a Monday, matching the C8 rule. -/
def c8MondayInstant : LocalInstant :=
  { date := { year := 2024, month := 1, day := 8 }, msOfDay := 10 * 3600000 }

/-- Witness for C8 (amended): on a Monday the rule matches and the live,
clientless run fails with the client-not-initialized error. -/
theorem claim_C8_witness :
    (runStep c8State c8MondayInstant false).result =
      Except.error "Slack client not initialized. Token required for live updates." ∧
    (runStep c8State c8MondayInstant false).calls = [] :=
  (claim_C8 c8State c8Schedule c8MondayInstant false rfl rfl rfl).1 c8Rule (by decide)

/-- First-match decomposition of `List.find?`: a found element satisfies
the predicate and everything before its first hit fails it. -/
theorem find?_first_decomp {α : Type} (p : α → Bool) :
    ∀ (l : List α) (a : α), l.find? p = some a →
      p a = true ∧ ∃ pre post, l = pre ++ a :: post ∧ ∀ x ∈ pre, p x = false
  | [], a, h => by simp [List.find?] at h
  | x :: xs, a, h => by
    by_cases hx : p x = true
    · rw [List.find?_cons_of_pos _ hx] at h
      injection h with h
      subst h
      exact ⟨hx, [], xs, rfl, by simp⟩
    · rw [List.find?_cons_of_neg _ hx] at h
      obtain ⟨hpa, pre, post, heq, hpre⟩ := find?_first_decomp p xs a h
      refine ⟨hpa, x :: pre, post, by simp [heq], ?_⟩
      intro y hy
      rcases List.mem_cons.mp hy with rfl | hy
      · exact Bool.eq_false_iff.mpr hx
      · exact hpre y hy

/-- C1.  `findMatchingRule` returns exactly the first rule in document
order accepted by the matcher, and `null` when none is;
`getAllMatchingRules` returns exactly the accepted rules, in document
order.  In particular, when two rules both match an instant and nothing
before the first of them matches, `findMatchingRule` returns the earlier
one and `getAllMatchingRules` lists both, in order. -/
theorem claim_C1 (schedule : Schedule) (t : LocalInstant) :
    (findMatchingRule schedule t = none ↔
      ∀ r ∈ schedule.rules, evaluateRule r t = false) ∧
    (∀ r, findMatchingRule schedule t = some r →
      evaluateRule r t = true ∧
      ∃ pre post, schedule.rules = pre ++ r :: post ∧
        ∀ p ∈ pre, evaluateRule p t = false) ∧
    (∀ r, r ∈ getAllMatchingRules schedule t ↔
      r ∈ schedule.rules ∧ evaluateRule r t = true) ∧
    (getAllMatchingRules schedule t).Sublist schedule.rules ∧
    (∀ pre mid post r1 r2, schedule.rules = pre ++ r1 :: (mid ++ r2 :: post) →
      evaluateRule r1 t = true → evaluateRule r2 t = true →
      (∀ p ∈ pre, evaluateRule p t = false) →
      findMatchingRule schedule t = some r1 ∧
      getAllMatchingRules schedule t =
        r1 :: (mid.filter (fun r => evaluateRule r t) ++
          r2 :: post.filter (fun r => evaluateRule r t))) := by
  refine ⟨?_, ?_, ?_, ?_, ?_⟩
  · unfold findMatchingRule
    rw [List.find?_eq_none]
    constructor
    · intro h r hr
      simpa using h r hr
    · intro h r hr
      simp [h r hr]
  · intro r hfind
    exact find?_first_decomp _ schedule.rules r hfind
  · intro r
    unfold getAllMatchingRules
    rw [List.mem_filter]
  · exact List.filter_sublist schedule.rules
  · intro pre mid post r1 r2 heq h1 h2 hpre
    have hprenil : pre.filter (fun r => evaluateRule r t) = [] := by
      rw [List.filter_eq_nil_iff]
      intro a ha
      simp [hpre a ha]
    constructor
    · unfold findMatchingRule
      rw [heq, List.find?_append]
      have hprenone : pre.find? (fun r => evaluateRule r t) = none := by
        rw [List.find?_eq_none]
        intro x hx
        simp [hpre x hx]
      rw [hprenone, List.find?_cons_of_pos _ (by simpa using h1)]
      rfl
    · unfold getAllMatchingRules
      rw [heq, List.filter_append, hprenil, List.nil_append,
        List.filter_cons_of_pos (by simpa using h1), List.filter_append,
        List.filter_cons_of_pos (by simpa using h2)]

/-- A dates rule matching 2024-01-08. -/
def c1RuleA : Rule :=
  { id := some "special-day", time := none, only_weekdays := false,
    kind := .dates ["2024-01-08"],
    status := { text := "Offsite", emoji := ":round_pushpin:", expire_hour := none } }

/-- A weekly rule also matching Mondays. -/
def c1RuleB : Rule :=
  { id := some "mondays", time := none, only_weekdays := false,
    kind := .weekly ["mon"],
    status := { text := "Focus", emoji := ":dart:", expire_hour := none } }

/-- Two rules that both match 2024-01-08 (a Monday), in document order. -/
def c1Schedule : Schedule :=
  { timezone := "UTC", rules := [c1RuleA, c1RuleB],
    options := { clear_when_no_match := false } }

/-- 2024-01-08T12:00 local. -/
def c1MondayInstant : LocalInstant :=
  { date := { year := 2024, month := 1, day := 8 }, msOfDay := 12 * 3600000 }

/-- Witness for C1: with both rules matching, the first in document
order is found and both appear, in order, in `getAllMatchingRules`. -/
theorem claim_C1_witness :
    findMatchingRule c1Schedule c1MondayInstant = some c1RuleA ∧
    getAllMatchingRules c1Schedule c1MondayInstant =
      c1RuleA :: (List.filter (fun r => evaluateRule r c1MondayInstant) [] ++
        c1RuleB :: List.filter (fun r => evaluateRule r c1MondayInstant) []) :=
  (claim_C1 c1Schedule c1MondayInstant).2.2.2.2 [] [] [] c1RuleA c1RuleB rfl
    (by decide) (by decide) (by simp)

/-- Written from the words of the specification, for the refinement
comparison with `isValidISODate`: strings of shape `YYYY-MM-DD` whose
numerals denote a real calendar date. -/
def denotesRealCalendarDate (s : String) : Bool :=
  dateShape s.data &&
  (match parseISOChars s.data with
   | some (y, m, d) => isValidYMD y m d
   | none => false)

/-- Inversion of the digit-character class. -/
theorem isDigitChar_cases (c : Char) (h : isDigitChar c = true) :
    c = '0' ∨ c = '1' ∨ c = '2' ∨ c = '3' ∨ c = '4' ∨
    c = '5' ∨ c = '6' ∨ c = '7' ∨ c = '8' ∨ c = '9' := by
  unfold isDigitChar at h
  simp only [Bool.or_eq_true, decide_eq_true_eq] at h
  tauto

/-- A digit character round-trips through its numeric value, which is
below 10. -/
theorem natDigit_digitVal (c : Char) (h : isDigitChar c = true) :
    natDigit (digitVal c) = c ∧ digitVal c < 10 := by
  rcases isDigitChar_cases c h with rfl | rfl | rfl | rfl | rfl | rfl | rfl | rfl | rfl | rfl <;>
    exact ⟨by decide, by decide⟩

/-- `natDigit` depends only on the argument modulo 10. -/
theorem natDigit_mod (m n : Nat) (h : m % 10 = n % 10) : natDigit m = natDigit n := by
  unfold natDigit
  rw [h]

/-- Rendering a two-digit value reproduces its digits. -/
theorem pad2_digits (a b : Nat) (_ha : a < 10) (hb : b < 10) :
    pad2 (a * 10 + b) = [natDigit a, natDigit b] := by
  unfold pad2
  rw [natDigit_mod ((a * 10 + b) / 10) a (by omega), natDigit_mod (a * 10 + b) b (by omega)]

/-- Rendering a four-digit value reproduces its digits. -/
theorem pad4_digits (a b c d : Nat) (_ha : a < 10) (hb : b < 10) (hc : c < 10)
    (hd : d < 10) :
    pad4 (a * 1000 + b * 100 + c * 10 + d) =
      [natDigit a, natDigit b, natDigit c, natDigit d] := by
  unfold pad4
  rw [natDigit_mod ((a * 1000 + b * 100 + c * 10 + d) / 1000) a (by omega),
    natDigit_mod ((a * 1000 + b * 100 + c * 10 + d) / 100) b (by omega),
    natDigit_mod ((a * 1000 + b * 100 + c * 10 + d) / 10) c (by omega),
    natDigit_mod (a * 1000 + b * 100 + c * 10 + d) d (by omega)]

/-- Decomposition of a string accepted by the shape regex. -/
theorem dateShape_decomp (cs : List Char) (h : dateShape cs = true) :
    ∃ y1 y2 y3 y4 m1 m2 d1 d2,
      cs = [y1, y2, y3, y4, '-', m1, m2, '-', d1, d2] ∧
      isDigitChar y1 = true ∧ isDigitChar y2 = true ∧ isDigitChar y3 = true ∧
      isDigitChar y4 = true ∧ isDigitChar m1 = true ∧ isDigitChar m2 = true ∧
      isDigitChar d1 = true ∧ isDigitChar d2 = true := by
  rcases cs with _ | ⟨y1, _ | ⟨y2, _ | ⟨y3, _ | ⟨y4, _ | ⟨s1, _ | ⟨m1, _ | ⟨m2, _ |
    ⟨s2, _ | ⟨d1, _ | ⟨d2, _ | ⟨e, rest⟩⟩⟩⟩⟩⟩⟩⟩⟩⟩⟩
  case cons.cons.cons.cons.cons.cons.cons.cons.cons.cons.nil =>
    unfold dateShape at h
    simp only [Bool.and_eq_true, decide_eq_true_eq] at h
    obtain ⟨⟨⟨⟨⟨⟨⟨⟨⟨h1, h2⟩, h3⟩, h4⟩, hs1⟩, h5⟩, h6⟩, hs2⟩, h7⟩, h8⟩ := h
    subst hs1
    subst hs2
    exact ⟨y1, y2, y3, y4, m1, m2, d1, d2, rfl, h1, h2, h3, h4, h5, h6, h7, h8⟩
  all_goals simp [dateShape] at h

/-- `isValidISODate` agrees with the spec-side predicate: the
parse-then-reserialize round trip succeeds exactly on shape-conforming
strings denoting a real calendar date. -/
theorem isValidISODate_eq_spec (s : String) :
    isValidISODate s = denotesRealCalendarDate s := by
  unfold isValidISODate denotesRealCalendarDate
  by_cases hshape : dateShape s.data = true
  · rw [if_pos hshape, hshape, Bool.true_and]
    obtain ⟨y1, y2, y3, y4, m1, m2, d1, d2, hcs, h1, h2, h3, h4, h5, h6, h7, h8⟩ :=
      dateShape_decomp s.data hshape
    have hmk : String.mk s.data = s := rfl
    rw [hcs]
    simp only [parseISOChars]
    by_cases hvalid :
        isValidYMD (digitVal y1 * 1000 + digitVal y2 * 100 + digitVal y3 * 10 + digitVal y4)
          (digitVal m1 * 10 + digitVal m2) (digitVal d1 * 10 + digitVal d2) = true
    · rw [hvalid, Bool.true_and]
      have htoiso :
          Date.toISO { year := digitVal y1 * 1000 + digitVal y2 * 100 + digitVal y3 * 10 +
                        digitVal y4,
                       month := digitVal m1 * 10 + digitVal m2,
                       day := digitVal d1 * 10 + digitVal d2 } = s := by
        unfold Date.toISO
        rw [pad4_digits _ _ _ _ (natDigit_digitVal y1 h1).2 (natDigit_digitVal y2 h2).2
            (natDigit_digitVal y3 h3).2 (natDigit_digitVal y4 h4).2,
          pad2_digits _ _ (natDigit_digitVal m1 h5).2 (natDigit_digitVal m2 h6).2,
          pad2_digits _ _ (natDigit_digitVal d1 h7).2 (natDigit_digitVal d2 h8).2,
          (natDigit_digitVal y1 h1).1, (natDigit_digitVal y2 h2).1,
          (natDigit_digitVal y3 h3).1, (natDigit_digitVal y4 h4).1,
          (natDigit_digitVal m1 h5).1, (natDigit_digitVal m2 h6).1,
          (natDigit_digitVal d1 h7).1, (natDigit_digitVal d2 h8).1]
        show ({ data := [y1, y2, y3, y4, '-', m1, m2, '-', d1, d2] } : String) = s
        rw [← hcs]
      simp [htoiso]
    · simp only [Bool.not_eq_true] at hvalid
      rw [hvalid]
      simp
  · rw [if_neg hshape]
    simp only [Bool.not_eq_true] at hshape
    rw [hshape, Bool.false_and]

/-- C6.  `isValidISODate` accepts exactly the `YYYY-MM-DD` strings that
denote a real calendar date (parse-then-reserialize round trip): the
calendar-invalid `"2024-13-01"` is rejected, the leap day
`"2024-02-29"` is accepted while `"2023-02-29"` is rejected. -/
theorem claim_C6 :
    (∀ s : String, isValidISODate s = denotesRealCalendarDate s) ∧
    isValidISODate "2024-13-01" = false ∧
    isValidISODate "2024-02-29" = true ∧
    isValidISODate "2023-02-29" = false :=
  ⟨isValidISODate_eq_spec, by decide, by decide, by decide⟩

/-- A document that is well-formed except that its rules array contains
`null` — the input on which `validateSchedule` throws. -/
def c5Doc : JValue :=
  JValue.obj [("version", JValue.num 1), ("timezone", JValue.str "UTC"),
    ("rules", JValue.arr [JValue.null])]

/-- C5 (code bug).  On `c5Doc` the per-rule validation handles the
`null` rule gracefully (`validateRule` reports "Rule must be an
object"), but `validateSchedule` then throws a TypeError reading `.id`
off the `null` rule inside the duplicate-id scan (`none` in the model)
instead of returning a `{valid, errors}` record. -/
theorem claim_C5_throws :
    validateSchedule c5Doc = none ∧
    validateRule JValue.null = ["Rule must be an object"] := by
  constructor
  · decide
  · decide

/-- A document accepted by `validateSchedule` is a truthy object whose
timezone check and rules check produced no errors. -/
theorem validateSchedule_valid_decomp (v : JValue) (res : VResult)
    (hv : validateSchedule v = some res) (hval : res.valid = true) :
    v.truthy = true ∧ timezoneErrors v = [] ∧ rulesErrors v = some [] := by
  unfold validateSchedule at hv
  by_cases hguard : (v.truthy && v.isObjectType) = true
  · rw [hguard] at hv
    rw [if_neg (by decide)] at hv
    cases hre : rulesErrors v with
    | none =>
      rw [hre] at hv
      exact absurd hv (by simp)
    | some rErrs =>
      rw [hre] at hv
      have hv' : res =
          { valid := (versionErrors v ++ timezoneErrors v ++ rErrs ++ optionsErrors v).isEmpty,
            errors := versionErrors v ++ timezoneErrors v ++ rErrs ++ optionsErrors v } :=
        (Option.some.inj hv).symm
      subst hv'
      have herr : versionErrors v ++ timezoneErrors v ++ rErrs ++ optionsErrors v = [] :=
        List.isEmpty_iff.mp hval
      rcases List.append_eq_nil.mp herr with ⟨h123, _⟩
      rcases List.append_eq_nil.mp h123 with ⟨h12, hre_nil⟩
      rcases List.append_eq_nil.mp h12 with ⟨_, htz⟩
      have ht : v.truthy = true := by
        have := hguard
        simp only [Bool.and_eq_true] at this
        exact this.1
      exact ⟨ht, htz, by rw [hre_nil]⟩
  · simp only [Bool.not_eq_true] at hguard
    rw [hguard] at hv
    rw [if_pos (by decide)] at hv
    have hv' : res = { valid := false, errors := ["Schedule must be an object"] } :=
      (Option.some.inj hv).symm
    subst hv'
    exact absurd hval (by decide)

/-- An error-free timezone check means the timezone field is truthy. -/
theorem timezoneErrors_nil_truthy (v : JValue) (h : timezoneErrors v = []) :
    jsTruthyOpt (getField v "timezone") = true := by
  unfold timezoneErrors at h
  by_cases ht : jsTruthyOpt (getField v "timezone") = true
  · exact ht
  · simp only [Bool.not_eq_true] at ht
    rw [ht] at h
    simp at h

/-- An error-free rules check means the rules field is a non-empty array
every element of which passed `validateRule`. -/
theorem rulesErrors_nil_decomp (v : JValue) (h : rulesErrors v = some []) :
    ∃ rules, getField v "rules" = some (JValue.arr rules) ∧ rules ≠ [] ∧
      ruleListErrors 0 rules = [] := by
  unfold rulesErrors at h
  cases hf : getField v "rules" with
  | none => rw [hf] at h; simp at h
  | some rv =>
    cases rv with
    | arr rules =>
      simp only [hf] at h
      by_cases hemp : rules = []
      · rw [if_pos hemp] at h
        simp at h
      · rw [if_neg hemp] at h
        cases hids : ruleIdsOf rules with
        | none => rw [hids] at h; simp at h
        | some ids =>
          simp only [hids, Option.some.injEq] at h
          exact ⟨rules, rfl, hemp, (List.append_eq_nil.mp h).1⟩
    | null => simp only [hf] at h; simp at h
    | bool b => simp only [hf] at h; simp at h
    | num n => simp only [hf] at h; simp at h
    | str s => simp only [hf] at h; simp at h
    | obj fields => simp only [hf] at h; simp at h

/-- Every rule of an error-free rule list passed `validateRule`. -/
theorem ruleListErrors_nil (l : List JValue) :
    ∀ i, ruleListErrors i l = [] → ∀ r ∈ l, validateRule r = [] := by
  induction l with
  | nil => intro i _ r hr; cases hr
  | cons x xs ih =>
    intro i h r hr
    unfold ruleListErrors at h
    rcases List.append_eq_nil.mp h with ⟨hx, hxs⟩
    rcases List.mem_cons.mp hr with rfl | hr
    · exact List.map_eq_nil_iff.mp hx
    · exact ih (i + 1) hxs r hr

/-- A rule that passed `validateRule` is a truthy object with a truthy
type, a truthy status and an error-free status record. -/
theorem validateRule_nil_decomp (r : JValue) (h : validateRule r = []) :
    r.truthy = true ∧
    jsTruthyOpt (getField r "type") = true ∧
    jsTruthyOpt (getField r "status") = true ∧
    validateStatus ((getField r "status").getD JValue.null) = [] := by
  unfold validateRule at h
  by_cases hguard : (r.truthy && r.isObjectType) = true
  · rw [hguard] at h
    rw [if_neg (by decide)] at h
    rcases List.append_eq_nil.mp h with ⟨h1234, _⟩
    rcases List.append_eq_nil.mp h1234 with ⟨h123, hstatus⟩
    rcases List.append_eq_nil.mp h123 with ⟨h12, _⟩
    rcases List.append_eq_nil.mp h12 with ⟨_, htype⟩
    have htruthy : r.truthy = true := by
      have := hguard
      simp only [Bool.and_eq_true] at this
      exact this.1
    have htypet : jsTruthyOpt (getField r "type") = true := by
      by_cases ht : jsTruthyOpt (getField r "type") = true
      · exact ht
      · simp only [Bool.not_eq_true] at ht
        unfold ruleTypeErrors at htype
        rw [ht] at htype
        simp at htype
    have hstatust : jsTruthyOpt (getField r "status") = true := by
      by_cases ht : jsTruthyOpt (getField r "status") = true
      · exact ht
      · simp only [Bool.not_eq_true] at ht
        unfold ruleStatusErrors at hstatus
        rw [ht] at hstatus
        simp at hstatus
    have hvs : validateStatus ((getField r "status").getD JValue.null) = [] := by
      unfold ruleStatusErrors at hstatus
      rw [hstatust] at hstatus
      rw [if_neg (by decide)] at hstatus
      exact List.map_eq_nil_iff.mp hstatus
    exact ⟨htruthy, htypet, hstatust, hvs⟩
  · simp only [Bool.not_eq_true] at hguard
    rw [hguard] at h
    rw [if_pos (by decide)] at h
    simp at h

/-- A status that passed `validateStatus` has truthy text and emoji. -/
theorem validateStatus_nil_decomp (st : JValue) (h : validateStatus st = []) :
    jsTruthyOpt (getField st "text") = true ∧
    jsTruthyOpt (getField st "emoji") = true := by
  unfold validateStatus at h
  by_cases hguard : (st.truthy && st.isObjectType) = true
  · rw [hguard] at h
    rw [if_neg (by decide)] at h
    rcases List.append_eq_nil.mp h with ⟨h12, _⟩
    rcases List.append_eq_nil.mp h12 with ⟨htext, hemoji⟩
    constructor
    · unfold statusTextErrors at htext
      cases hf : getField st "text" with
      | none => rw [hf] at htext; simp at htext
      | some v =>
        cases v with
        | str s =>
          by_cases hs : s = ""
          · rw [hf] at htext
            simp [hs] at htext
          · simp [jsTruthyOpt, JValue.truthy, hf, hs]
        | null => rw [hf] at htext; simp [JValue.truthy] at htext
        | bool b =>
          rw [hf] at htext
          by_cases hb : b = true
          · subst hb; simp [JValue.truthy] at htext
          · simp only [Bool.not_eq_true] at hb; subst hb; simp [JValue.truthy] at htext
        | num n =>
          rw [hf] at htext
          by_cases hn : (n ≠ 0 : Bool) = true <;> simp_all [JValue.truthy]
        | arr l => rw [hf] at htext; simp [JValue.truthy] at htext
        | obj fs => rw [hf] at htext; simp [JValue.truthy] at htext
    · unfold statusEmojiErrors at hemoji
      cases hf : getField st "emoji" with
      | none => rw [hf] at hemoji; simp at hemoji
      | some v =>
        cases v with
        | str s =>
          by_cases hs : s = ""
          · rw [hf] at hemoji
            simp [hs] at hemoji
          · simp [jsTruthyOpt, JValue.truthy, hf, hs]
        | null => rw [hf] at hemoji; simp [JValue.truthy] at hemoji
        | bool b =>
          rw [hf] at hemoji
          by_cases hb : b = true
          · subst hb; simp [JValue.truthy] at hemoji
          · simp only [Bool.not_eq_true] at hb; subst hb; simp [JValue.truthy] at hemoji
        | num n =>
          rw [hf] at hemoji
          by_cases hn : (n ≠ 0 : Bool) = true <;> simp_all [JValue.truthy]
        | arr l => rw [hf] at hemoji; simp [JValue.truthy] at hemoji
        | obj fs => rw [hf] at hemoji; simp [JValue.truthy] at hemoji
  · simp only [Bool.not_eq_true] at hguard
    rw [hguard] at h
    rw [if_pos (by decide)] at h
    simp at h

/-- A rule in full-validation shape passes the quick per-rule check. -/
theorem quickRuleErrors_ok (i : Nat) (r : JValue)
    (hr : r.truthy = true)
    (htype : jsTruthyOpt (getField r "type") = true)
    (hst : jsTruthyOpt (getField r "status") = true)
    (hvs : validateStatus ((getField r "status").getD JValue.null) = []) :
    quickRuleErrors i r = some [] := by
  cases hf : getField r "status" with
  | none => rw [hf] at hst; simp [jsTruthyOpt] at hst
  | some st =>
    rw [hf] at hvs
    have hdec := validateStatus_nil_decomp st (by simpa using hvs)
    cases r with
    | null => simp [JValue.truthy] at hr
    | bool b => simp [getField] at hf
    | num n => simp [getField] at hf
    | str s => simp [getField] at hf
    | arr l => simp [getField] at hf
    | obj fields =>
      simp [quickRuleErrors, hf, htype, hdec.1, hdec.2]

/-- A list of rules in full-validation shape passes the quick
`forEach`. -/
theorem quickRulesErrors_ok (l : List JValue) :
    ∀ i, (∀ r ∈ l, validateRule r = []) → quickRulesErrors i l = some [] := by
  induction l with
  | nil => intro i _; rfl
  | cons x xs ih =>
    intro i h
    have hx := validateRule_nil_decomp x (h x (List.mem_cons_self x xs))
    have hq : quickRuleErrors i x = some [] :=
      quickRuleErrors_ok i x hx.1 hx.2.1 hx.2.2.1 hx.2.2.2
    unfold quickRulesErrors
    rw [hq, ih (i + 1) (fun r hr => h r (List.mem_cons_of_mem x hr))]
    rfl

/-- The document witnessing the failure of the converse in C9: no
`version`, and the weekly rule has no `days` — `quickValidate` passes
it, full validation rejects it. -/
def c9Doc : JValue :=
  JValue.obj [("timezone", JValue.str "UTC"),
    ("rules", JValue.arr [JValue.obj [("type", JValue.str "weekly"),
      ("status", JValue.obj [("text", JValue.str "Hi"),
        ("emoji", JValue.str ":wave:")])]])]

/-- The full-validation outcome on `c9Doc`. -/
def c9FullResult : VResult :=
  { valid := false,
    errors := ["Schedule version must be 1", "Rule 1: Weekly rule must have a days array"] }

/-- C9.  Full validation implies quick validation: every document
`validateSchedule` accepts is also accepted by `quickValidate`; the
converse fails — `c9Doc` passes the quick check but fails full
validation. -/
theorem claim_C9 :
    (∀ (v : JValue) (res : VResult), validateSchedule v = some res → res.valid = true →
      ∃ q, quickValidate v = some q ∧ q.valid = true) ∧
    (∃ q, quickValidate c9Doc = some q ∧ q.valid = true) ∧
    (∃ r, validateSchedule c9Doc = some r ∧ r.valid = false) := by
  refine ⟨?_, ?_, ?_⟩
  · intro v res hv hval
    obtain ⟨htruthy, htz, hre⟩ := validateSchedule_valid_decomp v res hv hval
    obtain ⟨rules, hf, hne, hrl⟩ := rulesErrors_nil_decomp v hre
    have htzq := timezoneErrors_nil_truthy v htz
    have hall := ruleListErrors_nil rules 0 hrl
    have hqr : quickRulesErrors 0 rules = some [] := quickRulesErrors_ok rules 0 hall
    have hlen : jsLengthTruthy (some (JValue.arr rules)) = true := by
      simp [jsLengthTruthy, List.length_eq_zero, hne]
    have harr : (JValue.arr rules).truthy = true := rfl
    refine ⟨{ valid := true, errors := [] }, ?_, rfl⟩
    simp [quickValidate, htruthy, htzq, hf, hlen, hqr, harr]
  · exact ⟨{ valid := true, errors := [] }, by decide, rfl⟩
  · exact ⟨c9FullResult, by decide, rfl⟩

/-- Witness for C6 at a concrete string: the leap day 2024-02-29. -/
theorem claim_C6_witness :
    isValidISODate "2024-02-29" = denotesRealCalendarDate "2024-02-29" :=
  claim_C6.1 "2024-02-29"

/-- A concrete facade state for the C7 witness: live mode with a Slack
client and the two-rule schedule loaded. -/
def c7State : FacadeState :=
  { dryRun := false, hasSlackClient := true, schedule := some c1Schedule }

/-- Witness for C7 at a concrete state and instant. -/
theorem claim_C7_witness :
    (previewStep c7State c1MondayInstant false).calls = [] ∧
    (previewStep c7State c1MondayInstant false).state.dryRun = c7State.dryRun :=
  claim_C7 c7State c1MondayInstant false

/-- A document passing full validation, for the C9 witness. -/
def c9ValidDoc : JValue :=
  JValue.obj [("version", JValue.num 1), ("timezone", JValue.str "UTC"),
    ("rules", JValue.arr [JValue.obj [("id", JValue.str "r1"),
      ("type", JValue.str "weekly"), ("days", JValue.arr [JValue.str "mon"]),
      ("status", JValue.obj [("text", JValue.str "Hi"),
        ("emoji", JValue.str ":wave:")])]])]

/-- Witness for C9: the implication applied to a concrete document that
passes full validation. -/
theorem claim_C9_witness :
    ∃ q, quickValidate c9ValidDoc = some q ∧ q.valid = true :=
  claim_C9.1 c9ValidDoc { valid := true, errors := [] } (by decide) rfl

/-- Witness for C10 at a concrete status and instant. -/
theorem claim_C10_witness :
    calculateExpiration { text := "Lunch", emoji := ":pizza:", expire_hour := some 0 }
        c2Instant =
      calculateExpiration { text := "Lunch", emoji := ":pizza:", expire_hour := none }
        c2Instant :=
  (claim_C10 "Lunch" ":pizza:" c2Instant).1
